import Mathlib

/-!
Shallow embedding of the webrun Remote Execution Bridge core:
the retry engine (`retry.ts`), the property bridge (`helpers/utils.ts` /
`helpers/property.ts`), the event bridge (`helpers/events.ts`) and the
assertion instrumentation layer (`utils/expect-extensions.ts`).

Remote JavaScript values are modelled by `Value`; the remote document is an
association list from selector to element; the per-document Remote State
Registry (`window.__componentHelpers`) is a pair of association lists
(function-call histories and event histories).  Each `page.evaluate`
submission is translated to an explicit function on that state, and the
host-side retry loop is translated with an explicit fuel argument and an
explicit clock (the sequence of `Date.now()` readings observed at each
timeout check).
-/

namespace Webrun

/-- A remote JavaScript value, as classified by `detectPropertyType`.
Functions are represented by an opaque identifier: the bridge never
marshals function bodies, only installs stand-ins. -/
inductive Value where
  | vNull : Value
  | vUndefined : Value
  | vStr (s : String) : Value
  | vNum (n : Int) : Value
  | vBool (b : Bool) : Value
  | vArr (elems : List Value) : Value
  | vObj (fields : List (String × Value)) : Value
  | vFun (id : Nat) : Value
deriving Repr

/-- The `type` tag returned by `detectPropertyType` in `helpers/utils.ts`. -/
inductive PropType where
  | null | undefined | function | string | number | boolean | array | object
deriving DecidableEq, Repr

/-- `detectPropertyType` (helpers/utils.ts): the if-chain classifying a
property value before transmission. -/
def detectPropertyType : Value → PropType
  | .vNull => .null
  | .vUndefined => .undefined
  | .vFun _ => .function
  | .vStr _ => .string
  | .vNum _ => .number
  | .vBool _ => .boolean
  | .vArr _ => .array
  | .vObj _ => .object

/-- The JavaScript strict-equality test `value === undefined`. -/
def Value.isUndefined : Value → Bool
  | .vUndefined => true
  | _ => false

/-- One Tracked Call Record `{timestamp, args}` pushed by a tracking
stand-in. -/
structure FunctionCall where
  timestamp : Nat
  args : List Value
deriving Repr

/-- One Tracked Event Record pushed by a spy listener. -/
structure TrackedEvent where
  type : String
  detail : Value
  timestamp : Nat
  bubbles : Bool
  cancelable : Bool
  composed : Bool
deriving Repr

/-- The Remote State Registry `window.__componentHelpers`: two sub-maps,
function-call histories and event histories, modelled as association
lists. -/
structure Registry where
  functionCalls : List (String × List FunctionCall)
  events : List (String × List TrackedEvent)
deriving Repr

/-- The registry before any `setProperty`/`spyOn` has initialized it. -/
def emptyRegistry : Registry := ⟨[], []⟩

/-- Association-list read (the JavaScript `map[key]` access). -/
def assocGet (k : String) : List (String × β) → Option β
  | [] => none
  | (k₁, v) :: rest => if k₁ = k then some v else assocGet k rest

/-- Association-list write (the JavaScript `map[key] = v` assignment). -/
def assocSet (k : String) (v : β) : List (String × β) → List (String × β)
  | [] => [(k, v)]
  | (k₁, v₁) :: rest => if k₁ = k then (k, v) :: rest else (k₁, v₁) :: assocSet k v rest

/-- JSON string quoting used by `JSON.stringify` for string values. -/
def jsonQuote (s : String) : String :=
  "\"" ++ String.join (s.toList.map (fun c =>
    if c = '\\' then "\\\\" else if c = '"' then "\\\"" else String.singleton c)) ++ "\""

mutual

/-- `JSON.stringify`: `none` models the JavaScript result `undefined`
(for `undefined` and function values). -/
def jsonStringifyCore : Value → Option String
  | .vNull => some "null"
  | .vUndefined => none
  | .vFun _ => none
  | .vStr s => some (jsonQuote s)
  | .vNum n => some (toString n)
  | .vBool b => some (if b then "true" else "false")
  | .vArr elems => some ("[" ++ String.intercalate "," (jsonStringifyElems elems) ++ "]")
  | .vObj fields => some ("\x7b" ++ String.intercalate "," (jsonStringifyFields fields) ++ "\x7d")

/-- Array elements: `undefined`/function entries serialize as `null`. -/
def jsonStringifyElems : List Value → List String
  | [] => []
  | v :: rest => (jsonStringifyCore v).getD "null" :: jsonStringifyElems rest

/-- Object fields: `undefined`/function-valued fields are dropped. -/
def jsonStringifyFields : List (String × Value) → List String
  | [] => []
  | (k, v) :: rest =>
    match jsonStringifyCore v with
    | none => jsonStringifyFields rest
    | some s => (jsonQuote k ++ ":" ++ s) :: jsonStringifyFields rest

end

/-- The text produced by interpolating `JSON.stringify(value)` into a
template literal (JavaScript coerces the `undefined` result to the string
`undefined`). -/
def jsonStringify (v : Value) : String := (jsonStringifyCore v).getD "undefined"

/-! ## The remote document -/

/-- What a property slot of a remote element holds: either a plain value or
the tracking stand-in closure installed by a function-valued `setProperty`
(the closure captures its registry key `callId`). -/
inductive PropSlot where
  | plain (v : Value) : PropSlot
  | standIn (callId : String) : PropSlot
deriving Repr

/-- A remote element: its property slots and its attributes. -/
structure Element where
  props : List (String × PropSlot)
  attrs : List (String × String)
deriving Repr

/-- The remote document: `document.querySelector` resolution, as an
association list from selector to the (at most one) element it resolves
to. -/
structure Doc where
  elements : List (String × Element)
deriving Repr

/-- `document.querySelector(sel)`: `none` models a `null` result. -/
def querySelector (doc : Doc) (sel : String) : Option Element :=
  assocGet sel doc.elements

/-- Writing back the mutated element under its selector. -/
def docSet (doc : Doc) (sel : String) (el : Element) : Doc :=
  ⟨assocSet sel el doc.elements⟩

/-! ## Property bridge (helpers/utils.ts) -/

/-- The registry key `callId` built by the page/selector variant of
`setProperty`: the composite string `sel:prop`. -/
def functionCallKey (sel prop : String) : String := sel ++ ":" ++ prop

/-- The registry key built by `setPropertyOnLocator`: a synthetic
`locator:prop:now` key where `now` is the `Date.now()` reading at set
time. -/
def locatorFunctionCallKey (prop : String) (now : Nat) : String :=
  "locator:" ++ prop ++ ":" ++ toString now

/-- `setProperty(page, selector, propertyName, value)`: detects the value's
category; for a function installs a tracking stand-in (after clearing the
key's history); otherwise writes the property slot directly.  Errors model
the remote `throw new Error(...)` propagating to the host. -/
def setProperty (doc : Doc) (reg : Registry) (sel prop : String) (value : Value) :
    Except String (Doc × Registry) :=
  if detectPropertyType value = .function then
    match querySelector doc sel with
    | none => .error ("Element not found: " ++ sel)
    | some el =>
      let callId := functionCallKey sel prop
      let reg₁ : Registry := { reg with functionCalls := assocSet callId [] reg.functionCalls }
      let el₁ : Element := { el with props := assocSet prop (.standIn callId) el.props }
      .ok (docSet doc sel el₁, reg₁)
  else
    match querySelector doc sel with
    | none => .error ("Element not found: " ++ sel)
    | some el =>
      .ok (docSet doc sel { el with props := assocSet prop (.plain value) el.props }, reg)

/-- `setPropertyOnLocator(locator, propertyName, value)` in the
function-valued case: no selector is available, so the registry key is the
synthetic `locator:prop:now`; the key is also stashed on the element under
`__callId_prop`.  Non-function values are written directly, exactly as in
`setProperty`. -/
def setPropertyOnLocator (el : Element) (reg : Registry) (prop : String) (value : Value)
    (now : Nat) : Element × Registry :=
  if detectPropertyType value = .function then
    let callId := locatorFunctionCallKey prop now
    let reg₁ : Registry := { reg with functionCalls := assocSet callId [] reg.functionCalls }
    let stashed := assocSet ("__callId_" ++ prop) (.plain (.vStr callId)) el.props
    let el₁ : Element := { el with props := assocSet prop (.standIn callId) stashed }
    (el₁, reg₁)
  else
    ({ el with props := assocSet prop (.plain value) el.props }, reg)

/-- Remote code invoking a tracking stand-in with `args` at time `t`: if the
captured `callId` still has a backing list, a `{timestamp, args}` record is
pushed; the stand-in returns its argument list. -/
def invokeStandIn (reg : Registry) (callId : String) (args : List Value) (t : Nat) :
    Registry × Value :=
  match assocGet callId reg.functionCalls with
  | some calls =>
    ({ reg with functionCalls := assocSet callId (calls ++ [⟨t, args⟩]) reg.functionCalls },
      .vArr args)
  | none => (reg, .vArr args)

/-- A sequence of stand-in invocations `(time, args)`, applied in order. -/
def invokeStandInMany (reg : Registry) (callId : String) :
    List (Nat × List Value) → Registry
  | [] => reg
  | (t, args) :: rest => invokeStandInMany (invokeStandIn reg callId args t).1 callId rest

/-- `getFunctionCalls(page, selector, propertyName)`: a pure registry read,
defaulting to the empty list when the key has no backing list. -/
def getFunctionCalls (reg : Registry) (sel prop : String) : List FunctionCall :=
  (assocGet (functionCallKey sel prop) reg.functionCalls).getD []

/-- `clearFunctionCalls(page, selector, propertyName)`: resets the key's
list to empty when it exists, and does nothing otherwise. -/
def clearFunctionCalls (reg : Registry) (sel prop : String) : Registry :=
  match assocGet (functionCallKey sel prop) reg.functionCalls with
  | some _ => { reg with functionCalls := assocSet (functionCallKey sel prop) [] reg.functionCalls }
  | none => reg

/-! ## Event bridge (helpers/events.ts) -/

/-- The registry key `eventId` used by the event sub-map: `sel:event`. -/
def eventKey (sel event : String) : String := sel ++ ":" ++ event

/-- The activation submission of `spyOn(page, selector, eventName)`:
resolves the element, re-initializes the key's backing list to empty, and
installs the capture listener.  The listener itself is modelled by
`recordEvent`. -/
def spyOn (doc : Doc) (reg : Registry) (sel event : String) : Except String Registry :=
  match querySelector doc sel with
  | none => .error ("Element not found: " ++ sel)
  | some _ => .ok { reg with events := assocSet (eventKey sel event) [] reg.events }

/-- One firing of the capture listener installed by `spyOn`: pushes a
Tracked Event Record if the key still has a backing list. -/
def recordEvent (reg : Registry) (sel event : String) (e : TrackedEvent) : Registry :=
  match assocGet (eventKey sel event) reg.events with
  | some l => { reg with events := assocSet (eventKey sel event) (l ++ [e]) reg.events }
  | none => reg

/-- A batch of listener firings on arbitrary keys, applied in order. -/
def recordEvents (reg : Registry) : List (String × String × TrackedEvent) → Registry
  | [] => reg
  | (sel, event, e) :: rest => recordEvents (recordEvent reg sel event e) rest

/-- One call of the accessor closure returned by `spyOn`: a single remote
submission whose body only reads the registry (`?? []` on a missing key)
and mutates nothing, so it returns the state unchanged next to the list. -/
def spyAccessor (reg : Registry) (sel event : String) : Registry × List TrackedEvent :=
  (reg, (assocGet (eventKey sel event) reg.events).getD [])

/-- `emit(page, selector, eventName, detail?, options?)`: dispatches one
custom event built with the given detail and flags, defaulting every flag
to `true`. -/
def emit (doc : Doc) (sel event : String) (detail : Value)
    (bubbles cancelable composed : Option Bool) (now : Nat) :
    Except String TrackedEvent :=
  match querySelector doc sel with
  | none => .error ("Element not found: " ++ sel)
  | some _ =>
    .ok ⟨event, detail, now, bubbles.getD true, cancelable.getD true, composed.getD true⟩

/-- `waitForEvent(page, selector, eventName, timeout)`: a single remote
submission racing a one-shot listener against a timer.  `occurrence` is the
first matching event occurring after the submission starts (`none` when no
event fires); the listener wins exactly when that event fires strictly
before the timer. -/
def waitForEvent (doc : Doc) (sel event : String) (timeout : Nat)
    (occurrence : Option (Nat × TrackedEvent)) : Except String TrackedEvent :=
  match querySelector doc sel with
  | none => .error ("Element not found: " ++ sel)
  | some _ =>
    match occurrence with
    | some (t, e) =>
      if t < timeout then .ok e
      else .error ("Timeout waiting for event: " ++ event)
    | none => .error ("Timeout waiting for event: " ++ event)

/-! ## Retry engine (helpers/retry.ts) -/

/-- Outcome of a `retry` run.  `waits` counts the completed invocations of
the `waitBetweenRetries` delay primitive (equivalently, the index of the
attempt that produced the outcome).  `outOfFuel` is an artifact of the
explicit fuel: the source loop is `while (true)` and unbounded in attempt
count. -/
inductive RetryResult (α : Type) where
  | ok (v : α) (waits : Nat) : RetryResult α
  | timedOut (msg : String) (waits : Nat) : RetryResult α
  | outOfFuel : RetryResult α
deriving Repr

/-- The composite message of the `Timeout` error thrown by `retry`. -/
def timeoutMessage (timeout : Nat) (errorMessage lastErrMsg : String) : String :=
  "Timeout " ++ toString timeout ++ "ms exceeded " ++ errorMessage ++ ". " ++ lastErrMsg

/-- The `while (true)` body of `retry`, at attempt index `n`.  `fn n` is the
outcome of the n-th invocation of the operation; `clock n` is the
`Date.now()` reading observed at the timeout check after attempt `n`
fails; `startTime` is the reading taken on entry. -/
def retryAux (fn : Nat → Except String α) (clock : Nat → Nat) (startTime timeout : Nat)
    (errorMessage : String) : Nat → Nat → RetryResult α
  | 0, _ => .outOfFuel
  | fuel + 1, n =>
    match fn n with
    | .ok v => .ok v n
    | .error e =>
      if timeout ≤ clock n - startTime then
        .timedOut (timeoutMessage timeout errorMessage e) n
      else
        retryAux fn clock startTime timeout errorMessage fuel (n + 1)

/-- `retry(fn, {timeout, waitBetweenRetries, errorMessage})`. -/
def retry (fn : Nat → Except String α) (clock : Nat → Nat) (startTime timeout : Nat)
    (errorMessage : String) (fuel : Nat) : RetryResult α :=
  retryAux fn clock startTime timeout errorMessage fuel 0

/-! ## `getProperty` (helpers/utils.ts, page/selector variant) -/

/-- The `errorMessage` label `getProperty` hands to `retry`: the predicate
case reads `to satisfy predicate`, the default case `to be defined`. -/
def getPropErrorLabel (hasPredicate : Bool) (prop sel : String) : String :=
  if hasPredicate then
    "waiting for property \"" ++ prop ++ "\" on \"" ++ sel ++ "\" to satisfy predicate"
  else
    "waiting for property \"" ++ prop ++ "\" on \"" ++ sel ++ "\" to be defined"

/-- One attempt of `getProperty`'s retried operation: the remote read
(`read`, which may fail with `Element not found`), then the acceptance
check — a failing predicate throws with the current value stringified, and
without a predicate an `undefined` value throws `Property is undefined`. -/
def getPropAttempt (predicate : Option (Value → Bool)) (read : Except String Value) :
    Except String Value :=
  match read with
  | .error e => .error e
  | .ok value =>
    match predicate with
    | some p =>
      if p value then .ok value
      else .error ("Predicate not satisfied. Current value: " ++ jsonStringify value)
    | none =>
      if value.isUndefined then .error "Property is undefined"
      else .ok value

/-- `getProperty(page, selector, propertyName, options)`: the retry loop
over `getPropAttempt`, with `reads n` the remote read performed by attempt
`n` and defaults `timeout = 5000`. -/
def getPropertyRun (reads : Nat → Except String Value) (predicate : Option (Value → Bool))
    (clock : Nat → Nat) (startTime timeout : Nat) (prop sel : String) (fuel : Nat) :
    RetryResult Value :=
  retry (fun n => getPropAttempt predicate (reads n)) clock startTime timeout
    (getPropErrorLabel predicate.isSome prop sel) fuel

/-! ## Assertion instrumentation layer (utils/expect-extensions.ts) -/

/-- The fixed allow-list `visualMatchers`. -/
def visualMatchers : List String :=
  ["toBeVisible", "toBeHidden", "toBeEnabled", "toBeDisabled", "toBeChecked",
   "toBeEditable", "toBeFocused", "toBeEmpty", "toBeAttached", "toContainText",
   "toHaveText", "toHaveValue", "toHaveValues", "toHaveAttribute", "toHaveClass",
   "toHaveCSS", "toHaveId", "toHaveCount", "toHaveAccessibleName",
   "toHaveAccessibleDescription", "toHaveRole"]

/-- The `skipScreenshotMethods` list: assertions that already perform image
capture/comparison. -/
def skipScreenshotMethods : List String := ["toHaveScreenshot", "toMatchSnapshot"]

/-- Whether the proxy's `get` trap wraps method `prop` with a capture: the
skip-list is consulted first, then the allow-list. -/
def shouldCapture (prop : String) : Bool :=
  if skipScreenshotMethods.contains prop then false
  else visualMatchers.contains prop

/-- Success or thrown failure of an assertion or capture step. -/
inductive Outcome (α : Type) where
  | ok (v : α) : Outcome α
  | thrown (e : String) : Outcome α
deriving Repr, DecidableEq

/-- Invoking method `prop` on an assertion object produced by
`expectWithScreenshots`: when instrumentation applies, the original method
runs first; only on its success (and with a page context set) is one
capture attempted, inside a `try`/`catch` whose `catch` swallows; the
original result is returned.  Returns the caller-visible outcome and the
number of capture attempts made. -/
def invokeWrapped (autoVrt : Bool) (prop : String) (methodOutcome : Outcome Value)
    (pageSet : Bool) (captureOutcome : Outcome Unit) : Outcome Value × Nat :=
  if autoVrt && shouldCapture prop then
    match methodOutcome with
    | .thrown e => (.thrown e, 0)
    | .ok v =>
      if pageSet then
        (match captureOutcome with
         | .ok _ => (.ok v, 1)
         | .thrown _ => (.ok v, 1))
      else (.ok v, 0)
  else (methodOutcome, 0)

/-! ## Auxiliary lemmas -/

theorem assocGet_assocSet_self (k : String) (v : β) (l : List (String × β)) :
    assocGet k (assocSet k v l) = some v := by
  induction l with
  | nil => simp [assocGet, assocSet]
  | cons hd tl ih =>
    obtain ⟨k₁, v₁⟩ := hd
    by_cases h : k₁ = k
    · simp [assocGet, assocSet, h]
    · simp [assocGet, assocSet, h, ih]

theorem assocGet_assocSet_ne (k k₂ : String) (v : β) (l : List (String × β))
    (h : k₂ ≠ k) : assocGet k (assocSet k₂ v l) = assocGet k l := by
  induction l with
  | nil => simp [assocGet, assocSet, h]
  | cons hd tl ih =>
    obtain ⟨k₁, v₁⟩ := hd
    by_cases h₁ : k₁ = k₂
    · subst h₁
      simp [assocGet, assocSet, h]
    · by_cases h₂ : k₁ = k
      · subst h₂
        simp [assocGet, assocSet, h₁, Ne.symm h]
      · simp [assocGet, assocSet, h₁, h₂, ih]

/-- A `retry` run that reports a timeout does so at an attempt whose
operation failed, and its message is the composite `timeoutMessage` built
from that failure. -/
theorem retryAux_timedOut_message (fn : Nat → Except String α) (clock : Nat → Nat)
    (startTime timeout : Nat) (errorMessage : String) :
    ∀ fuel n m w, retryAux fn clock startTime timeout errorMessage fuel n = .timedOut m w →
      ∃ e, fn w = .error e ∧ m = timeoutMessage timeout errorMessage e := by
  intro fuel
  induction fuel with
  | zero => intro n m w h; simp [retryAux] at h
  | succ fuel ih =>
    intro n m w h
    rw [retryAux] at h
    cases hfn : fn n with
    | ok v => rw [hfn] at h; simp at h
    | error e =>
      rw [hfn] at h
      by_cases ht : timeout ≤ clock n - startTime
      · simp [ht] at h
        obtain ⟨hm, hw⟩ := h
        exact ⟨e, by rw [← hw]; exact hfn, hm.symm⟩
      · simp [ht] at h
        exact ih (n + 1) m w h

/-- Invoking a stand-in repeatedly appends one record per invocation, in
order, to the key's backing list. -/
theorem invokeStandInMany_history (callId : String) :
    ∀ (invs : List (Nat × List Value)) (reg : Registry) (l : List FunctionCall),
      assocGet callId reg.functionCalls = some l →
      assocGet callId (invokeStandInMany reg callId invs).functionCalls =
        some (l ++ invs.map (fun ta => ⟨ta.1, ta.2⟩)) := by
  intro invs
  induction invs with
  | nil => intro reg l h; simpa [invokeStandInMany] using h
  | cons hd rest ih =>
    intro reg l h
    obtain ⟨t, args⟩ := hd
    rw [invokeStandInMany, invokeStandIn, h]
    have hnext := ih { reg with functionCalls := assocSet callId (l ++ [⟨t, args⟩]) reg.functionCalls }
      (l ++ [⟨t, args⟩]) (by simp [assocGet_assocSet_self])
    rw [hnext]
    simp

/-- A listener firing never shortens the list a spy accessor reads. -/
theorem recordEvent_length_mono (reg : Registry) (s e sel event : String) (ev : TrackedEvent) :
    (spyAccessor reg sel event).2.length ≤ (spyAccessor (recordEvent reg s e ev) sel event).2.length := by
  rw [recordEvent]
  cases hget : assocGet (eventKey s e) reg.events with
  | none => exact Nat.le_refl _
  | some l =>
    by_cases hk : eventKey s e = eventKey sel event
    · rw [hk] at hget
      simp [spyAccessor, hk, assocGet_assocSet_self, hget]
    · simp [spyAccessor, assocGet_assocSet_ne _ _ _ _ hk]

/-- A batch of listener firings never shortens the list a spy accessor
reads. -/
theorem recordEvents_length_mono (sel event : String) :
    ∀ (occs : List (String × String × TrackedEvent)) (reg : Registry),
      (spyAccessor reg sel event).2.length ≤ (spyAccessor (recordEvents reg occs) sel event).2.length := by
  intro occs
  induction occs with
  | nil => intro reg; simp [recordEvents]
  | cons hd rest ih =>
    intro reg
    obtain ⟨s, e, ev⟩ := hd
    rw [recordEvents]
    exact Nat.le_trans (recordEvent_length_mono reg s e sel event ev) (ih _)

/-- A function-valued `setProperty` that succeeds re-initializes the
backing list of the key `functionCallKey sel prop` to the empty list. -/
theorem setProperty_function_init
    (doc doc₁ : Doc) (reg reg₁ : Registry) (sel prop : String) (fid : Nat)
    (h : setProperty doc reg sel prop (.vFun fid) = .ok (doc₁, reg₁)) :
    assocGet (functionCallKey sel prop) reg₁.functionCalls = some [] := by
  rw [setProperty] at h
  simp [detectPropertyType] at h
  cases hq : querySelector doc sel with
  | none => rw [hq] at h; simp at h
  | some el =>
    rw [hq] at h
    simp at h
    rw [← h.2]
    simp [assocGet_assocSet_self]

/-- Every composite key of the form `sel ++ ":" ++ name` carries
`":" ++ name` as a suffix of its character data. -/
theorem selectorKey_suffix (sel name : String) :
    (":" ++ name).data <:+ (sel ++ ":" ++ name).data := by
  have h : (sel ++ ":" ++ name).data = sel.data ++ (":" ++ name).data := by
    rw [String.append_assoc]
    exact String.data_append sel (":" ++ name)
  rw [h]
  exact List.suffix_append _ _

/-! ## Claims -/

/-- C1: whenever the very first remote read of `getProperty` yields a value
satisfying the acceptance condition (not `undefined` when no predicate is
given, or the predicate returns `true`), the call resolves with that value
at attempt index 0 and the delay primitive `waitBetweenRetries` is never
invoked (the `waits` count of the result is 0). -/
theorem getProperty_settled_first_attempt
    (reads : Nat → Except String Value) (predicate : Option (Value → Bool))
    (clock : Nat → Nat) (startTime timeout : Nat) (prop sel : String) (fuel : Nat)
    (v : Value) (hfuel : 0 < fuel) (hread : reads 0 = .ok v)
    (haccept : (predicate = none ∧ v.isUndefined = false) ∨
      (∃ p, predicate = some p ∧ p v = true)) :
    getPropertyRun reads predicate clock startTime timeout prop sel fuel = .ok v 0 := by
  obtain ⟨fuel, rfl⟩ : ∃ k, fuel = k + 1 := ⟨fuel - 1, by omega⟩
  rcases haccept with ⟨hp, hv⟩ | ⟨p, hp, hpv⟩
  · simp [getPropertyRun, retry, retryAux, getPropAttempt, hread, hp, hv]
  · simp [getPropertyRun, retry, retryAux, getPropAttempt, hread, hp, hpv]

/-- Witness for C1: a property already holding `7` with no predicate
resolves on the first attempt with zero delay invocations. -/
theorem getProperty_settled_first_attempt_witness :
    getPropertyRun (fun _ => .ok (.vNum 7)) none (fun _ => 0) 0 5000 "count" "#el" 1 =
      .ok (.vNum 7) 0 :=
  getProperty_settled_first_attempt (fun _ => .ok (.vNum 7)) none (fun _ => 0) 0 5000
    "count" "#el" 1 (.vNum 7) (by decide) rfl (Or.inl ⟨rfl, rfl⟩)

/-- C2: every `getProperty` run that times out raises a message equal to
`Timeout {timeout}ms exceeded {label}. {lastErr}` — embedding the
configured timeout, the human-readable label and the last underlying
failure's message; the label reads `to satisfy predicate` exactly in the
predicate case and `to be defined` otherwise, and when the last attempt's
remote read produced a value rejected by the predicate, the last failure
message embeds that value's serialization. -/
theorem getProperty_timeout_message
    (reads : Nat → Except String Value) (predicate : Option (Value → Bool))
    (clock : Nat → Nat) (startTime timeout : Nat) (prop sel : String) (fuel : Nat)
    (msg : String) (w : Nat)
    (h : getPropertyRun reads predicate clock startTime timeout prop sel fuel =
      .timedOut msg w) :
    ∃ e, getPropAttempt predicate (reads w) = .error e
      ∧ msg = "Timeout " ++ toString timeout ++ "ms exceeded " ++
          getPropErrorLabel predicate.isSome prop sel ++ ". " ++ e
      ∧ (predicate.isSome = true →
          getPropErrorLabel predicate.isSome prop sel =
            "waiting for property \"" ++ prop ++ "\" on \"" ++ sel ++ "\" to satisfy predicate")
      ∧ (predicate.isSome = false →
          getPropErrorLabel predicate.isSome prop sel =
            "waiting for property \"" ++ prop ++ "\" on \"" ++ sel ++ "\" to be defined")
      ∧ (∀ p v, predicate = some p → reads w = .ok v →
          e = "Predicate not satisfied. Current value: " ++ jsonStringify v) := by
  obtain ⟨e, hfn, hm⟩ := retryAux_timedOut_message _ clock startTime timeout _ fuel 0 msg w h
  refine ⟨e, hfn, ?_, ?_, ?_, ?_⟩
  · simpa [timeoutMessage] using hm
  · intro hs; simp [getPropErrorLabel, hs]
  · intro hs; simp [getPropErrorLabel, hs]
  · intro p v hp hv
    rw [hp, hv] at hfn
    rw [getPropAttempt] at hfn
    by_cases hpv : p v = true
    · simp [hpv] at hfn
    · simp [hpv] at hfn
      exact hfn.symm

/-- Witness for C2: with a never-satisfied predicate, `timeout = 500` and a
clock already past the deadline at the first check, the run times out and
the composite message decomposes as the theorem states. -/
theorem getProperty_timeout_message_witness :
    ∃ e, getPropAttempt (some (fun _ => false)) ((fun _ => Except.ok (Value.vNum 1)) 0) = .error e
      ∧ ("Timeout 500ms exceeded waiting for property \"count\" on \"#el\" to satisfy predicate. Predicate not satisfied. Current value: 1" : String) =
          "Timeout " ++ toString 500 ++ "ms exceeded " ++
            getPropErrorLabel (Option.some (fun _ : Value => false)).isSome "count" "#el" ++ ". " ++ e
      ∧ ((Option.some (fun _ : Value => false)).isSome = true →
          getPropErrorLabel (Option.some (fun _ : Value => false)).isSome "count" "#el" =
            "waiting for property \"" ++ "count" ++ "\" on \"" ++ "#el" ++ "\" to satisfy predicate")
      ∧ ((Option.some (fun _ : Value => false)).isSome = false →
          getPropErrorLabel (Option.some (fun _ : Value => false)).isSome "count" "#el" =
            "waiting for property \"" ++ "count" ++ "\" on \"" ++ "#el" ++ "\" to be defined")
      ∧ (∀ p v, (Option.some (fun _ : Value => false)) = some p →
          ((fun _ => Except.ok (Value.vNum 1)) 0 : Except String Value) = .ok v →
          e = "Predicate not satisfied. Current value: " ++ jsonStringify v) :=
  getProperty_timeout_message (fun _ => .ok (.vNum 1)) (some (fun _ => false))
    (fun _ => 1000) 0 500 "count" "#el" 1 _ 0 rfl

/-- C3: a function-valued `setProperty` re-initializes the key's tracked
call history to the empty list; after any sequence of stand-in invocations
the history holds exactly one `{timestamp, args}` record per invocation, in
invocation order with the matching arguments, every invocation returns its
argument list, and non-decreasing invocation times yield non-decreasing
record timestamps. -/
theorem setProperty_function_tracking
    (doc : Doc) (reg : Registry) (sel prop : String) (fid : Nat)
    (doc₁ : Doc) (reg₁ : Registry) (invs : List (Nat × List Value))
    (h : setProperty doc reg sel prop (.vFun fid) = .ok (doc₁, reg₁)) :
    getFunctionCalls reg₁ sel prop = []
    ∧ getFunctionCalls (invokeStandInMany reg₁ (functionCallKey sel prop) invs) sel prop =
        invs.map (fun ta => ⟨ta.1, ta.2⟩)
    ∧ (∀ (reg₂ : Registry) (args : List Value) (t : Nat),
        (invokeStandIn reg₂ (functionCallKey sel prop) args t).2 = .vArr args)
    ∧ (List.Chain' (· ≤ ·) (invs.map Prod.fst) →
        List.Chain' (· ≤ ·)
          ((getFunctionCalls (invokeStandInMany reg₁ (functionCallKey sel prop) invs) sel prop).map
            FunctionCall.timestamp)) := by
  have hinit := setProperty_function_init doc doc₁ reg reg₁ sel prop fid h
  have hmany := invokeStandInMany_history (functionCallKey sel prop) invs reg₁ [] hinit
  have hcalls : getFunctionCalls (invokeStandInMany reg₁ (functionCallKey sel prop) invs) sel prop =
      invs.map (fun ta => ⟨ta.1, ta.2⟩) := by
    simp [getFunctionCalls, hmany]
  refine ⟨by simp [getFunctionCalls, hinit], hcalls, ?_, ?_⟩
  · intro reg₂ args t
    rw [invokeStandIn]
    cases assocGet (functionCallKey sel prop) reg₂.functionCalls <;> rfl
  · intro hchain
    rw [hcalls]
    have : (invs.map (fun ta => (⟨ta.1, ta.2⟩ : FunctionCall))).map FunctionCall.timestamp =
        invs.map Prod.fst := by
      simp
    rw [this]
    exact hchain

/-- Witness for C3: setting `onClick` on `#el` and invoking the stand-in
twice, with `"a"` at time 1 and `"b"` at time 2, yields exactly those two
records in order. -/
theorem setProperty_function_tracking_witness :
    getFunctionCalls (⟨[("#el:onClick", [])], []⟩ : Registry) "#el" "onClick" = []
    ∧ getFunctionCalls
        (invokeStandInMany (⟨[("#el:onClick", [])], []⟩ : Registry)
          (functionCallKey "#el" "onClick")
          [(1, [.vStr "a"]), (2, [.vStr "b"])]) "#el" "onClick" =
        [⟨1, [.vStr "a"]⟩, ⟨2, [.vStr "b"]⟩]
    ∧ (∀ (reg₂ : Registry) (args : List Value) (t : Nat),
        (invokeStandIn reg₂ (functionCallKey "#el" "onClick") args t).2 = .vArr args)
    ∧ (List.Chain' (· ≤ ·) ([(1, [Value.vStr "a"]), (2, [Value.vStr "b"])].map Prod.fst) →
        List.Chain' (· ≤ ·)
          ((getFunctionCalls
            (invokeStandInMany (⟨[("#el:onClick", [])], []⟩ : Registry)
              (functionCallKey "#el" "onClick")
              [(1, [.vStr "a"]), (2, [.vStr "b"])]) "#el" "onClick").map
            FunctionCall.timestamp)) :=
  setProperty_function_tracking ⟨[("#el", ⟨[], []⟩)]⟩ emptyRegistry "#el" "onClick" 0
    ⟨[("#el", ⟨[("onClick", .standIn "#el:onClick")], []⟩)]⟩ ⟨[("#el:onClick", [])], []⟩
    [(1, [.vStr "a"]), (2, [.vStr "b"])] rfl

/-- C5: after a function-valued `setProperty` and a sequence of tracked
invocations, a later non-function `setProperty` on the same property name
replaces the property slot with the new plain value while leaving the
registry — and hence the accumulated `getFunctionCalls` history — entirely
unchanged. -/
theorem setProperty_overwrite_keeps_history
    (doc doc₁ doc₂ : Doc) (reg reg₁ reg₂ : Registry) (sel prop : String) (fid : Nat)
    (invs : List (Nat × List Value)) (v : Value)
    (h₁ : setProperty doc reg sel prop (.vFun fid) = .ok (doc₁, reg₁))
    (hv : detectPropertyType v ≠ .function)
    (h₂ : setProperty doc₁ (invokeStandInMany reg₁ (functionCallKey sel prop) invs) sel prop v =
      .ok (doc₂, reg₂)) :
    reg₂ = invokeStandInMany reg₁ (functionCallKey sel prop) invs
    ∧ getFunctionCalls reg₂ sel prop = invs.map (fun ta => ⟨ta.1, ta.2⟩)
    ∧ ∃ el₂, querySelector doc₂ sel = some el₂ ∧ assocGet prop el₂.props = some (.plain v) := by
  have hinit := setProperty_function_init doc doc₁ reg reg₁ sel prop fid h₁
  have hcalls : getFunctionCalls (invokeStandInMany reg₁ (functionCallKey sel prop) invs) sel prop =
      invs.map (fun ta => ⟨ta.1, ta.2⟩) := by
    simp [getFunctionCalls, invokeStandInMany_history (functionCallKey sel prop) invs reg₁ [] hinit]
  rw [setProperty] at h₂
  rw [if_neg hv] at h₂
  cases hq : querySelector doc₁ sel with
  | none => rw [hq] at h₂; simp at h₂
  | some el =>
    rw [hq] at h₂
    simp at h₂
    obtain ⟨hdoc, hreg⟩ := h₂
    refine ⟨hreg.symm, by rw [← hreg]; exact hcalls, ?_⟩
    refine ⟨{ el with props := assocSet prop (.plain v) el.props }, ?_, ?_⟩
    · rw [← hdoc]
      simp [querySelector, docSet, assocGet_assocSet_self]
    · simp [assocGet_assocSet_self]

/-- Witness for C5: one tracked invocation of `onClick`, then overwriting
`onClick` with the string `"x"`: the slot holds the plain string and the
single record survives. -/
theorem setProperty_overwrite_keeps_history_witness :
    (⟨[("#el:onClick", [⟨3, [Value.vNull]⟩])], []⟩ : Registry) =
      invokeStandInMany (⟨[("#el:onClick", [])], []⟩ : Registry)
        (functionCallKey "#el" "onClick") [(3, [Value.vNull])]
    ∧ getFunctionCalls (⟨[("#el:onClick", [⟨3, [Value.vNull]⟩])], []⟩ : Registry) "#el" "onClick" =
        [(3, [Value.vNull])].map (fun ta => ⟨ta.1, ta.2⟩)
    ∧ ∃ el₂, querySelector
        ⟨[("#el", ⟨[("onClick", .plain (.vStr "x"))], []⟩)]⟩ "#el" = some el₂
        ∧ assocGet "onClick" el₂.props = some (.plain (.vStr "x")) :=
  setProperty_overwrite_keeps_history
    ⟨[("#el", ⟨[], []⟩)]⟩
    ⟨[("#el", ⟨[("onClick", .standIn "#el:onClick")], []⟩)]⟩
    ⟨[("#el", ⟨[("onClick", .plain (.vStr "x"))], []⟩)]⟩
    emptyRegistry ⟨[("#el:onClick", [])], []⟩ ⟨[("#el:onClick", [⟨3, [Value.vNull]⟩])], []⟩
    "#el" "onClick" 0 [(3, [Value.vNull])] (.vStr "x") rfl (by decide) rfl

/-- C4: `spyOn` re-initializes the key's backing list to empty at
activation time; the accessor's submission only reads (it returns the
state unchanged, so two accessor calls with no intervening event return
identical lists), and across any batch of intervening event occurrences
the accessor's list length never decreases. -/
theorem spyOn_accessor_properties
    (doc : Doc) (reg reg₁ : Registry) (sel event : String)
    (h : spyOn doc reg sel event = .ok reg₁) :
    (spyAccessor reg₁ sel event).2 = []
    ∧ (∀ reg₂ : Registry, (spyAccessor reg₂ sel event).1 = reg₂
        ∧ (spyAccessor (spyAccessor reg₂ sel event).1 sel event).2 =
            (spyAccessor reg₂ sel event).2)
    ∧ (∀ (reg₂ : Registry) (occs : List (String × String × TrackedEvent)),
        (spyAccessor reg₂ sel event).2.length ≤
          (spyAccessor (recordEvents reg₂ occs) sel event).2.length) := by
  refine ⟨?_, fun reg₂ => ⟨rfl, rfl⟩, fun reg₂ occs => recordEvents_length_mono sel event occs reg₂⟩
  rw [spyOn] at h
  cases hq : querySelector doc sel with
  | none => rw [hq] at h; simp at h
  | some el =>
    rw [hq] at h
    simp at h
    rw [← h]
    simp [spyAccessor, assocGet_assocSet_self]

/-- Witness for C4: activating a spy for `ping` on `#el` over a registry
already holding a stale record clears the list, and the accessor
properties hold at that concrete state. -/
theorem spyOn_accessor_properties_witness :
    (spyAccessor (⟨[], [("#el:ping", [])]⟩ : Registry) "#el" "ping").2 = []
    ∧ (∀ reg₂ : Registry, (spyAccessor reg₂ "#el" "ping").1 = reg₂
        ∧ (spyAccessor (spyAccessor reg₂ "#el" "ping").1 "#el" "ping").2 =
            (spyAccessor reg₂ "#el" "ping").2)
    ∧ (∀ (reg₂ : Registry) (occs : List (String × String × TrackedEvent)),
        (spyAccessor reg₂ "#el" "ping").2.length ≤
          (spyAccessor (recordEvents reg₂ occs) "#el" "ping").2.length) :=
  spyOn_accessor_properties ⟨[("#el", ⟨[], []⟩)]⟩
    ⟨[], [("#el:ping", [⟨"ping", .vNull, 0, true, true, true⟩])]⟩
    ⟨[], [("#el:ping", [])]⟩ "#el" "ping" rfl

/-- C6 counterexample: with no occurrence of `ping` within `timeout =
5000`, `waitForEvent` raises `Timeout waiting for event: ping` — the
message names the event but nowhere contains the configured timeout value
`5000`, contradicting the claim that the message states the timeout. -/
theorem waitForEvent_message_counterexample :
    waitForEvent ⟨[("#el", ⟨[], []⟩)]⟩ "#el" "ping" 5000 none =
      .error "Timeout waiting for event: ping"
    ∧ ¬ ("5000".data <:+: "Timeout waiting for event: ping".data) :=
  ⟨rfl, by decide⟩

/-- C6 (amended): a `waitForEvent` call on a resolvable element in which no
matching event occurs before the timer fires fails with a Timeout error
whose message names the awaited event (`Timeout waiting for event:
{event}`); the configured timeout value is not part of the message. -/
theorem waitForEvent_timeout_names_event
    (doc : Doc) (sel event : String) (timeout : Nat) (el : Element)
    (hel : querySelector doc sel = some el)
    (occurrence : Option (Nat × TrackedEvent))
    (hocc : ∀ t e, occurrence = some (t, e) → timeout ≤ t) :
    waitForEvent doc sel event timeout occurrence =
      .error ("Timeout waiting for event: " ++ event) := by
  rw [waitForEvent.eq_def, hel]
  cases occurrence with
  | none => rfl
  | some te =>
    obtain ⟨t, e⟩ := te
    have := hocc t e rfl
    simp [Nat.not_lt.mpr this]

/-- Witness for C6: a `click` event that never fires within `timeout = 250`
on a present element produces exactly the event-naming message. -/
theorem waitForEvent_timeout_names_event_witness :
    waitForEvent ⟨[("#btn", ⟨[], []⟩)]⟩ "#btn" "click" 250 none =
      .error ("Timeout waiting for event: " ++ "click") :=
  waitForEvent_timeout_names_event ⟨[("#btn", ⟨[], []⟩)]⟩ "#btn" "click" 250 ⟨[], []⟩ rfl none
    (fun t e h => by simp at h)

/-- C7: a wrapped assertion's caller-visible outcome is always exactly the
underlying method's outcome — a thrown failure propagates unchanged (and is
then never followed by a capture attempt), a success is returned unchanged
whatever the capture step does, the capture outcome is invisible to the
caller, and a capture is attempted only when the method succeeded. -/
theorem invokeWrapped_preserves_assertion
    (autoVrt : Bool) (prop : String) (m : Outcome Value) (pageSet : Bool)
    (c : Outcome Unit) :
    (invokeWrapped autoVrt prop m pageSet c).1 = m
    ∧ (∀ e, m = .thrown e → invokeWrapped autoVrt prop m pageSet c = (.thrown e, 0))
    ∧ (∀ e₁, invokeWrapped autoVrt prop m pageSet (.thrown e₁) =
        invokeWrapped autoVrt prop m pageSet (.ok ()))
    ∧ ((invokeWrapped autoVrt prop m pageSet c).2 ≠ 0 → ∃ v, m = .ok v) := by
  rw [invokeWrapped.eq_def]
  by_cases hw : (autoVrt && shouldCapture prop) = true
  · rw [if_pos hw]
    cases m with
    | thrown e =>
      exact ⟨rfl, fun e₁ he => by simp at he; simp [he],
        fun e₁ => by simp [invokeWrapped, hw], fun hc => absurd rfl hc⟩
    | ok v =>
      refine ⟨?_, fun e he => by simp at he, fun e₁ => by simp [invokeWrapped, hw], fun hc => ⟨v, rfl⟩⟩
      by_cases hp : pageSet = true
      · simp only [hp, if_true]
        cases c <;> rfl
      · simp only [Bool.not_eq_true] at hp
        simp [hp]
  · rw [if_neg hw]
    exact ⟨rfl, fun e he => by simp [he], fun e₁ => by simp [invokeWrapped, hw],
      fun hc => absurd rfl hc⟩

/-- Witness for C7: a failing `toBeVisible` under active instrumentation
propagates its failure with zero capture attempts. -/
theorem invokeWrapped_preserves_assertion_witness :
    invokeWrapped true "toBeVisible" (.thrown "not visible") true (.thrown "no baseline") =
      (.thrown "not visible", 0) :=
  (invokeWrapped_preserves_assertion true "toBeVisible" (.thrown "not visible") true
    (.thrown "no baseline")).2.1 "not visible" rfl

/-- C8 counterexample: the count assertion `toHaveCount` sits on the
`visualMatchers` allow-list and does trigger a capture (as does the
structural-presence assertion `toBeAttached`), contradicting the claim
that count and structural-presence assertions are excluded by the
allow-list. -/
theorem visualMatchers_counterexample :
    visualMatchers.contains "toHaveCount" = true
    ∧ shouldCapture "toHaveCount" = true
    ∧ visualMatchers.contains "toBeAttached" = true
    ∧ (invokeWrapped true "toHaveCount" (.ok Value.vNull) true (.ok ())).2 = 1 :=
  ⟨by decide, by decide, by decide, rfl⟩

/-- C8 (amended): only method names on the fixed `visualMatchers`
allow-list trigger a capture, and the two image-capture/comparison methods
`toHaveScreenshot` and `toMatchSnapshot` never trigger a secondary capture
— but the allow-list itself includes the count assertion `toHaveCount` and
the structural-presence assertion `toBeAttached`. -/
theorem visualMatchers_allow_list
    (p : String) (autoVrt pageSet : Bool) (m : Outcome Value) (c : Outcome Unit) :
    (shouldCapture p = true → visualMatchers.contains p = true)
    ∧ shouldCapture "toHaveScreenshot" = false
    ∧ shouldCapture "toMatchSnapshot" = false
    ∧ (invokeWrapped autoVrt "toHaveScreenshot" m pageSet c).2 = 0
    ∧ (invokeWrapped autoVrt "toMatchSnapshot" m pageSet c).2 = 0
    ∧ ((invokeWrapped autoVrt p m pageSet c).2 ≠ 0 → visualMatchers.contains p = true)
    ∧ visualMatchers.contains "toHaveCount" = true
    ∧ visualMatchers.contains "toBeAttached" = true := by
  have hallow : shouldCapture p = true → visualMatchers.contains p = true := by
    intro h
    rw [shouldCapture] at h
    by_cases hs : skipScreenshotMethods.contains p = true
    · rw [if_pos hs] at h; exact absurd h (by simp)
    · rwa [if_neg hs] at h
  have hskip : ∀ q, shouldCapture q = false →
      ∀ a ps, (invokeWrapped a q m ps c).2 = 0 := by
    intro q hq a ps
    rw [invokeWrapped.eq_def]
    have : (a && shouldCapture q) = false := by rw [hq]; simp
    rw [if_neg (by simp [this])]
  refine ⟨hallow, by decide, by decide, hskip _ (by decide) autoVrt pageSet,
    hskip _ (by decide) autoVrt pageSet, ?_, by decide, by decide⟩
  intro hc
  apply hallow
  by_cases h : shouldCapture p = true
  · exact h
  · exfalso
    apply hc
    exact hskip p (by simpa using h) autoVrt pageSet

/-- Witness for C8 (amended): instantiated at `toBeVisible` with a passing
assertion, a set page context and active instrumentation. -/
theorem visualMatchers_allow_list_witness :
    visualMatchers.contains "toBeVisible" = true :=
  (visualMatchers_allow_list "toBeVisible" true true (.ok Value.vNull) (.ok ())).1 (by decide)

/-- C9 counterexample: the locator variant `setPropertyOnLocator` creates
its history entry under the synthetic key `locator:onClick:0` (for
property `onClick` at `Date.now() = 0`); every key of the form
`{selector}:{name}` for the property name `onClick` carries `:onClick` as
a suffix (`selectorKey_suffix`), but the created key does not even contain
`:onClick` as a contiguous segment followed by its end — here it is not a
suffix — so that entry is not keyed by `{selector}:{name}`. -/
theorem registry_key_counterexample :
    (setPropertyOnLocator ⟨[], []⟩ emptyRegistry "onClick" (.vFun 0) 0).2.functionCalls =
      [("locator:onClick:0", [])]
    ∧ ¬ ((":" ++ "onClick").data <:+ "locator:onClick:0".data) :=
  ⟨rfl, by decide⟩

/-- C9 (amended): entries created by the selector-based `setProperty` and
by `spyOn` are keyed by the composite `{selector}:{name}` string (selector
++ `:` ++ name, which always carries `:name` as a suffix); the locator
variant `setPropertyOnLocator` instead keys its entry by the synthetic
`locator:{name}:{timestamp}` string. -/
theorem registry_keys_composite
    (doc doc₁ : Doc) (reg reg₁ reg₂ : Registry) (sel prop event : String) (fid : Nat)
    (el : Element) (now : Nat)
    (hset : setProperty doc reg sel prop (.vFun fid) = .ok (doc₁, reg₁))
    (hspy : spyOn doc reg sel event = .ok reg₂) :
    functionCallKey sel prop = sel ++ ":" ++ prop
    ∧ assocGet (sel ++ ":" ++ prop) reg₁.functionCalls = some []
    ∧ eventKey sel event = sel ++ ":" ++ event
    ∧ assocGet (sel ++ ":" ++ event) reg₂.events = some []
    ∧ (":" ++ prop).data <:+ (functionCallKey sel prop).data
    ∧ (":" ++ event).data <:+ (eventKey sel event).data
    ∧ locatorFunctionCallKey prop now = "locator:" ++ prop ++ ":" ++ toString now
    ∧ assocGet ("locator:" ++ prop ++ ":" ++ toString now)
        (setPropertyOnLocator el reg prop (.vFun fid) now).2.functionCalls = some [] := by
  refine ⟨rfl, ?_, rfl, ?_, selectorKey_suffix sel prop, selectorKey_suffix sel event, rfl, ?_⟩
  · exact setProperty_function_init doc doc₁ reg reg₁ sel prop fid hset
  · rw [spyOn] at hspy
    cases hq : querySelector doc sel with
    | none => rw [hq] at hspy; simp at hspy
    | some e =>
      rw [hq] at hspy
      simp at hspy
      rw [← hspy]
      simp [eventKey, assocGet_assocSet_self]
  · rw [setPropertyOnLocator]
    simp [detectPropertyType, locatorFunctionCallKey, assocGet_assocSet_self]

/-- Witness for C9 (amended): instantiated for `#el`, property `onClick`,
event `ping` and `Date.now() = 4`. -/
theorem registry_keys_composite_witness :
    functionCallKey "#el" "onClick" = "#el" ++ ":" ++ "onClick"
    ∧ assocGet ("#el" ++ ":" ++ "onClick")
        (⟨[("#el:onClick", [])], []⟩ : Registry).functionCalls = some []
    ∧ eventKey "#el" "ping" = "#el" ++ ":" ++ "ping"
    ∧ assocGet ("#el" ++ ":" ++ "ping") (⟨[], [("#el:ping", [])]⟩ : Registry).events = some []
    ∧ (":" ++ "onClick").data <:+ (functionCallKey "#el" "onClick").data
    ∧ (":" ++ "ping").data <:+ (eventKey "#el" "ping").data
    ∧ locatorFunctionCallKey "onClick" 4 = "locator:" ++ "onClick" ++ ":" ++ toString 4
    ∧ assocGet ("locator:" ++ "onClick" ++ ":" ++ toString 4)
        (setPropertyOnLocator ⟨[], []⟩ emptyRegistry "onClick" (.vFun 0) 4).2.functionCalls =
        some [] :=
  registry_keys_composite ⟨[("#el", ⟨[], []⟩)]⟩
    ⟨[("#el", ⟨[("onClick", .standIn "#el:onClick")], []⟩)]⟩
    emptyRegistry ⟨[("#el:onClick", [])], []⟩ ⟨[], [("#el:ping", [])]⟩
    "#el" "onClick" "ping" 0 ⟨[], []⟩ 4 rfl rfl

/-- C10: reading accumulated history is a pure registry read that cannot
raise an element-resolution error: on the never-initialized empty registry
and, in general, on any key without a backing list, `getFunctionCalls` and
the spy accessor return the empty list, and the accessor leaves the
registry untouched. -/
theorem history_reads_never_fail (reg : Registry) (sel prop event : String) :
    getFunctionCalls emptyRegistry sel prop = []
    ∧ (spyAccessor emptyRegistry sel event).2 = []
    ∧ (assocGet (functionCallKey sel prop) reg.functionCalls = none →
        getFunctionCalls reg sel prop = [])
    ∧ (assocGet (eventKey sel event) reg.events = none →
        (spyAccessor reg sel event).2 = [])
    ∧ (spyAccessor reg sel event).1 = reg := by
  refine ⟨rfl, rfl, ?_, ?_, rfl⟩
  · intro h; simp [getFunctionCalls, h]
  · intro h; simp [spyAccessor, h]

/-- Witness for C10: a registry holding only an `#other:ping` event list
still yields the empty list for the never-initialized keys of `#el`. -/
theorem history_reads_never_fail_witness :
    getFunctionCalls emptyRegistry "#el" "onClick" = []
    ∧ (spyAccessor emptyRegistry "#el" "ping").2 = []
    ∧ (assocGet (functionCallKey "#el" "onClick")
        (⟨[], [("#other:ping", [])]⟩ : Registry).functionCalls = none →
        getFunctionCalls (⟨[], [("#other:ping", [])]⟩ : Registry) "#el" "onClick" = [])
    ∧ (assocGet (eventKey "#el" "ping")
        (⟨[], [("#other:ping", [])]⟩ : Registry).events = none →
        (spyAccessor (⟨[], [("#other:ping", [])]⟩ : Registry) "#el" "ping").2 = [])
    ∧ (spyAccessor (⟨[], [("#other:ping", [])]⟩ : Registry) "#el" "ping").1 =
        (⟨[], [("#other:ping", [])]⟩ : Registry) :=
  history_reads_never_fail ⟨[], [("#other:ping", [])]⟩ "#el" "onClick" "ping"

end Webrun
